import Mathlib

set_option maxHeartbeats 1000000
set_option maxRecDepth 100000

/-!
Shallow embedding of gitynity/httppal (src/main.go), a minimal command-line
HTTP client.  The program parses flags (-url, -method, -file, -follow, -auth)
and trailing positional header arguments, builds one HTTP request, sends it
through a standard client with a 30-second timeout and a redirect policy
driven by the -follow flag, and renders the status line, headers and a
pretty-printed JSON body to standard output.

External collaborators (net/url.Parse, os.Open, http.NewRequest, the HTTP
transport) are modelled by their success/failure verdicts recorded in a
`World` value; the server side of the exchange is modelled as the chain of
responses the client would see hop by hop.  encoding/json's Unmarshal into
`map[string]interface\x7b\x7d` and MarshalIndent with two-space indent are
modelled concretely below (JSON numbers restricted to integer numerals;
string escapes restricted to the common short escapes).
-/

/-- Opening curly brace character, written via its code point. -/
def lbrace : Char := Char.ofNat 123

/-- Closing curly brace character, written via its code point. -/
def rbrace : Char := Char.ofNat 125

/-- Decides whether the first list is a prefix of the second. -/
def listPrefixOf : List Char → List Char → Bool
  | [], _ => true
  | _ :: _, [] => false
  | a :: as, b :: bs => a == b && listPrefixOf as bs

/-- Decides whether the first list occurs as a contiguous sublist of the second. -/
def listInfixOf (n : List Char) : List Char → Bool
  | [] => listPrefixOf n []
  | b :: bs => listPrefixOf n (b :: bs) || listInfixOf n bs

/-- Substring test on strings, used to state that usage text contains a flag name. -/
def strContains (hay needle : String) : Bool :=
  listInfixOf needle.data hay.data

/-- Model of the first-colon split underlying Go strings.SplitN(s, ":", 2):
returns the characters before the first colon and those after it, or none
when the list has no colon. -/
def breakAtColon : List Char → Option (List Char × List Char)
  | [] => none
  | c :: cs =>
    if c = ':' then some ([], cs)
    else
      match breakAtColon cs with
      | none => none
      | some (a, b) => some (c :: a, b)

/-- Whether a string contains a colon. -/
def containsColon (s : String) : Bool :=
  s.data.contains ':'

/-- Model of Go strings.SplitN(s, ":", 2): one part when the string has no
colon, otherwise the text before the first colon and the text after it. -/
def goSplitN2Colon (s : String) : List String :=
  match breakAtColon s.data with
  | none => [s]
  | some (a, b) => [String.mk a, String.mk b]

/-- UTF-8 encoding of one character as its byte values. -/
def utf8EncodeChar (c : Char) : List Nat :=
  let n := c.toNat
  if n < 128 then [n]
  else if n < 2048 then [192 + n / 64, 128 + n % 64]
  else if n < 65536 then [224 + n / 4096, 128 + (n / 64) % 64, 128 + n % 64]
  else [240 + n / 262144, 128 + (n / 4096) % 64, 128 + (n / 64) % 64, 128 + n % 64]

/-- UTF-8 bytes of a string. -/
def utf8Bytes (s : String) : List Nat :=
  (s.data.map utf8EncodeChar).flatten

/-- Standard base64 alphabet. -/
def b64Alphabet : String :=
  "ABCDEFGHIJKLMNOPQRSTUVWXYZabcdefghijklmnopqrstuvwxyz0123456789+/"

/-- Character of the standard base64 alphabet at a 6-bit index. -/
def b64Char (n : Nat) : Char :=
  b64Alphabet.data.getD n 'A'

/-- Model of base64.StdEncoding.EncodeToString on a byte list: groups of three
bytes become four alphabet characters, with '=' padding. -/
def base64Chunks : List Nat → String
  | [] => ""
  | [a] =>
    String.mk [b64Char (a / 4), b64Char ((a % 4) * 16)] ++ "=="
  | [a, b] =>
    String.mk [b64Char (a / 4), b64Char ((a % 4) * 16 + b / 16),
               b64Char ((b % 16) * 4)] ++ "="
  | a :: b :: c :: rest =>
    String.mk [b64Char (a / 4), b64Char ((a % 4) * 16 + b / 16),
               b64Char ((b % 16) * 4 + c / 64), b64Char (c % 64)] ++ base64Chunks rest

/-- Model of base64.StdEncoding.EncodeToString applied to the UTF-8 bytes of a
string, as used for the Basic Authorization header in src/main.go line 102. -/
def base64Encode (s : String) : String :=
  base64Chunks (utf8Bytes s)

/-- JSON values as decoded by the model of encoding/json (numbers restricted
to integer numerals). -/
inductive Jso where
  | null : Jso
  | bool : Bool → Jso
  | num : Int → Jso
  | str : String → Jso
  | arr : List Jso → Jso
  | obj : List (String × Jso) → Jso

/-- Skips the JSON whitespace characters space, tab, newline and carriage return. -/
def skipWs : List Char → List Char
  | [] => []
  | c :: cs =>
    if c == ' ' || c == '\t' || c == '\n' || c == '\r' then skipWs cs
    else c :: cs

/-- Takes the longest leading run of decimal digits. -/
def takeDigits : List Char → List Char × List Char
  | [] => ([], [])
  | c :: cs =>
    if c.isDigit then
      let p := takeDigits cs
      (c :: p.1, p.2)
    else ([], c :: cs)

/-- Numeric value of a digit run. -/
def digitsVal (ds : List Char) : Nat :=
  ds.foldl (fun acc c => acc * 10 + (c.toNat - 48)) 0

mutual

/-- Model of the JSON grammar accepted by encoding/json: null, booleans,
integer numerals, strings with the short escapes, arrays and objects.  The
first argument is fuel bounding recursion depth; parseJson supplies enough
for any input it is called on in this development. -/
def parseValue : Nat → List Char → Option (Jso × List Char)
  | 0, _ => none
  | fuel + 1, cs0 =>
    match skipWs cs0 with
    | [] => none
    | c :: rest =>
      if c == 'n' then
        if listPrefixOf ['u', 'l', 'l'] rest then some (.null, rest.drop 3) else none
      else if c == 't' then
        if listPrefixOf ['r', 'u', 'e'] rest then some (.bool true, rest.drop 3) else none
      else if c == 'f' then
        if listPrefixOf ['a', 'l', 's', 'e'] rest then some (.bool false, rest.drop 4) else none
      else if c == '"' then
        match parseStr fuel rest with
        | some (s, r) => some (.str (String.mk s), r)
        | none => none
      else if c == '[' then parseArrItems fuel rest []
      else if c == lbrace then parseObjItems fuel rest []
      else if c == '-' then
        match takeDigits rest with
        | ([], _) => none
        | (ds, r) => some (.num (-(digitsVal ds : Int)), r)
      else if c.isDigit then
        match takeDigits (c :: rest) with
        | (ds, r) => some (.num (Int.ofNat (digitsVal ds)), r)
      else none

/-- Parses the characters of a JSON string after the opening quote, handling
the short escape sequences; returns the decoded characters and the remainder
after the closing quote. -/
def parseStr : Nat → List Char → Option (List Char × List Char)
  | 0, _ => none
  | _ + 1, [] => none
  | fuel + 1, c :: cs =>
    if c == '"' then some ([], cs)
    else if c == '\\' then
      match cs with
      | [] => none
      | e :: cs2 =>
        let dec : Option Char :=
          if e == '"' then some '"'
          else if e == '\\' then some '\\'
          else if e == '/' then some '/'
          else if e == 'n' then some '\n'
          else if e == 't' then some '\t'
          else if e == 'r' then some '\r'
          else none
        match dec with
        | none => none
        | some ch =>
          match parseStr fuel cs2 with
          | some (s, r) => some (ch :: s, r)
          | none => none
    else
      match parseStr fuel cs with
      | some (s, r) => some (c :: s, r)
      | none => none

/-- Parses array items after the opening bracket, accumulating parsed values. -/
def parseArrItems : Nat → List Char → List Jso → Option (Jso × List Char)
  | 0, _, _ => none
  | fuel + 1, cs, acc =>
    match skipWs cs with
    | [] => none
    | c :: rest =>
      if c == ']' && acc.isEmpty then some (.arr [], rest)
      else
        match parseValue fuel (c :: rest) with
        | none => none
        | some (v, r) =>
          match skipWs r with
          | [] => none
          | d :: r2 =>
            if d == ',' then parseArrItems fuel r2 (acc ++ [v])
            else if d == ']' then some (.arr (acc ++ [v]), r2)
            else none

/-- Parses object members after the opening brace, accumulating parsed fields. -/
def parseObjItems : Nat → List Char → List (String × Jso) → Option (Jso × List Char)
  | 0, _, _ => none
  | fuel + 1, cs, acc =>
    match skipWs cs with
    | [] => none
    | c :: rest =>
      if c == rbrace && acc.isEmpty then some (.obj [], rest)
      else if c == '"' then
        match parseStr fuel rest with
        | none => none
        | some (k, r) =>
          match skipWs r with
          | [] => none
          | d :: r2 =>
            if d == ':' then
              match parseValue fuel r2 with
              | none => none
              | some (v, r3) =>
                match skipWs r3 with
                | [] => none
                | e :: r4 =>
                  if e == ',' then parseObjItems fuel r4 (acc ++ [(String.mk k, v)])
                  else if e == rbrace then some (.obj (acc ++ [(String.mk k, v)]), r4)
                  else none
            else none
      else none

end

/-- Model of encoding/json parsing of a whole document: one JSON value with
only whitespace around it; anything else is a parse error (none). -/
def parseJson (s : String) : Option Jso :=
  match parseValue (s.data.length * 4 + 16) s.data with
  | some (j, rest) => if (skipWs rest).isEmpty then some j else none
  | none => none

/-- Keeps the last occurrence of each key, as assignment into a Go map does
when Unmarshal meets duplicate object keys. -/
def dedupeLast : List (String × Jso) → List (String × Jso)
  | [] => []
  | (k, v) :: rest =>
    if rest.any (fun q => q.1 == k) then dedupeLast rest
    else (k, v) :: dedupeLast rest

/-- Lexicographic order on character lists by code point, modelling the
byte-wise string order Go's Marshal sorts map keys with (they agree on the
ASCII keys this development uses). -/
def charListLe : List Char → List Char → Bool
  | [], _ => true
  | _ :: _, [] => false
  | a :: as, b :: bs =>
    if a.toNat < b.toNat then true
    else if b.toNat < a.toNat then false
    else charListLe as bs

/-- Key order used when marshalling object fields. -/
def strLeB (a b : String) : Bool :=
  charListLe a.data b.data

/-- Inserts a field into a key-sorted field list. -/
def insertByKey (p : String × Jso) : List (String × Jso) → List (String × Jso)
  | [] => [p]
  | q :: qs => if strLeB p.1 q.1 then p :: q :: qs else q :: insertByKey p qs

/-- Sorts fields by key, as Go's Marshal does for map keys. -/
def sortByKey : List (String × Jso) → List (String × Jso)
  | [] => []
  | p :: ps => insertByKey p (sortByKey ps)

mutual

/-- Normal form of a decoded value once it has round-tripped through Go's
generic interface representation: object fields collapse duplicate keys
(last write wins) and are emitted in sorted key order at every level.  The
fuel argument bounds the recursion and exceeds the node count of every value
this development applies it to (values parsed from a body are smaller than
the body). -/
def normalizeJF : Nat → Jso → Jso
  | 0, j => j
  | fuel + 1, j =>
    match j with
    | .null => .null
    | .bool b => .bool b
    | .num n => .num n
    | .str s => .str s
    | .arr xs => .arr (normalizeListF fuel xs)
    | .obj fs => .obj (sortByKey (dedupeLast (normalizeFieldsF fuel fs)))

/-- Normalizes every element of an array. -/
def normalizeListF : Nat → List Jso → List Jso
  | 0, xs => xs
  | fuel + 1, [] => []
  | fuel + 1, x :: xs => normalizeJF fuel x :: normalizeListF fuel xs

/-- Normalizes the value of every field. -/
def normalizeFieldsF : Nat → List (String × Jso) → List (String × Jso)
  | 0, fs => fs
  | fuel + 1, [] => []
  | fuel + 1, (k, v) :: fs => (k, normalizeJF fuel v) :: normalizeFieldsF fuel fs

end

/-- JSON string quoting with the short escapes, as the marshaller emits. -/
def quoteStr (s : String) : String :=
  let esc : Char → List Char := fun c =>
    if c == '"' then ['\\', '"']
    else if c == '\\' then ['\\', '\\']
    else if c == '\n' then ['\\', 'n']
    else if c == '\t' then ['\\', 't']
    else if c == '\r' then ['\\', 'r']
    else [c]
  "\"" ++ String.mk ((s.data.map esc).flatten) ++ "\""

/-- Two-space indentation at a nesting depth, as MarshalIndent(v, "", "  ")
produces. -/
def indentStr (d : Nat) : String :=
  String.mk (List.replicate (2 * d) ' ')

mutual

/-- Model of json.MarshalIndent(v, "", "  ") on an already normalized value.
The fuel argument bounds the recursion exactly as in normalizeJF. -/
def renderJF : Nat → Jso → Nat → String
  | 0, _, _ => ""
  | fuel + 1, j, d =>
    match j with
    | .null => "null"
    | .bool true => "true"
    | .bool false => "false"
    | .num n => toString n
    | .str s => quoteStr s
    | .arr [] => "[]"
    | .arr (x :: xs) =>
        "[\n" ++ indentStr (d + 1) ++ renderJF fuel x (d + 1) ++ renderArrRestF fuel xs (d + 1)
          ++ "\n" ++ indentStr d ++ "]"
    | .obj [] => "\x7b\x7d"
    | .obj (f :: fs) =>
        "\x7b\n" ++ indentStr (d + 1) ++ quoteStr f.1 ++ ": " ++ renderJF fuel f.2 (d + 1)
          ++ renderObjRestF fuel fs (d + 1) ++ "\n" ++ indentStr d ++ "\x7d"

/-- Renders the remaining array items, each on its own indented line. -/
def renderArrRestF : Nat → List Jso → Nat → String
  | 0, _, _ => ""
  | fuel + 1, [], _ => ""
  | fuel + 1, x :: xs, d =>
      ",\n" ++ indentStr d ++ renderJF fuel x d ++ renderArrRestF fuel xs d

/-- Renders the remaining object fields, each on its own indented line. -/
def renderObjRestF : Nat → List (String × Jso) → Nat → String
  | 0, _, _ => ""
  | fuel + 1, [], _ => ""
  | fuel + 1, f :: fs, d =>
      ",\n" ++ indentStr d ++ quoteStr f.1 ++ ": " ++ renderJF fuel f.2 d
        ++ renderObjRestF fuel fs d

end

/-- Outcome of the body-rendering step of src/main.go lines 138-155. -/
inductive RenderBodyResult where
  | printed : String → RenderBodyResult
  | parseError : String → RenderBodyResult
deriving DecidableEq

/-- Whether a render result took the unmarshal-error path. -/
def isParseErr : RenderBodyResult → Bool
  | .printed _ => false
  | .parseError _ => true

/-- Model of src/main.go lines 138-155: Unmarshal the body into
`map[string]interface\x7b\x7d` (succeeding only for a JSON object, or for
null which leaves the nil map untouched), then MarshalIndent with two-space
indent and print; on an Unmarshal error, print the error and return without
printing any body content. -/
def renderBody (body : String) : RenderBodyResult :=
  match parseJson body with
  | none => .parseError "invalid JSON"
  | some (.obj fs) =>
    .printed (renderJF (body.data.length + 16) (normalizeJF (body.data.length + 16) (.obj fs)) 0)
  | some .null => .printed "null"
  | some _ => .parseError "cannot unmarshal value into map"

/-- Command-line inputs of one invocation: the five flags of src/main.go
lines 32-36 and the trailing positional arguments (flag.Args). -/
structure Invocation where
  url : String
  method : String
  file : String
  follow : Bool
  auth : String
  args : List String

/-- One HTTP response as the client sees it: protocol version, status text
(Go's resp.Status, such as "200 OK"), numeric status code, header map
(name to values), and the outcome of draining its body stream. -/
structure HttpResponse where
  protoMajor : Nat
  protoMinor : Nat
  status : String
  statusCode : Nat
  headers : List (String × List String)
  bodyRead : Except String String

/-- Verdicts of the external collaborators for one invocation: whether
net/url.Parse accepts the -url value, whether os.Open succeeds on the -file
value, whether http.NewRequest succeeds, and the chain of responses the
server produces hop by hop (head is the first response; each further entry
is the response behind the redirect of the previous one). -/
structure World where
  urlParseOk : Bool
  fileOpenOk : Bool
  newRequestOk : Bool
  chain : List HttpResponse

/-- Exit path taken by the program, one constructor per terminating point of
src/main.go. -/
inductive Outcome where
  | usage
  | fatalUrl
  | fatalFile
  | fatalAuth
  | fatalHeader
  | panicHeader
  | fatalNewRequest
  | fatalNetwork
  | fatalBodyRead
  | jsonError
  | success
deriving DecidableEq

/-- The request as handed to client.Do: method, URL, and the header map
built by http.NewRequest plus the Set calls of src/main.go lines 96-104
(single value per name). -/
structure SentRequest where
  method : String
  url : String
  headers : List (String × String)
deriving DecidableEq

/-- Observable final state of one invocation: exit path, process exit code,
standard-output lines, the request given to the client (if any was), and
whether each of the two resources (request body file, response body stream)
was acquired and released by the program before the process ended. -/
structure FinalState where
  outcome : Outcome
  exitCode : Nat
  stdout : List String
  sentRequest : Option SentRequest
  fileOpened : Bool
  fileClosed : Bool
  respBodyAcquired : Bool
  respBodyClosed : Bool

/-- Model of http.Header.Set on a single-valued header list: replace the
value under the name, or append the pair when the name is absent. -/
def setHeader (hs : List (String × String)) (k v : String) : List (String × String) :=
  match hs with
  | [] => [(k, v)]
  | (k0, v0) :: rest =>
    if k0 = k then (k, v) :: rest else (k0, v0) :: setHeader rest k v

/-- Looks up the single value recorded under a header name. -/
def lookupHeader (hs : List (String × String)) (k : String) : Option String :=
  match hs with
  | [] => none
  | (k0, v0) :: rest => if k0 = k then some v0 else lookupHeader rest k

/-- Go reports these status codes to the redirect-following logic of the
client (301, 302, 303, 307, 308). -/
def isRedirectStatus (c : Nat) : Bool :=
  c == 301 || c == 302 || c == 303 || c == 307 || c == 308

/-- Model of http.Client.Do with the CheckRedirect function of src/main.go
lines 109-114: on a redirect response, when FollowRedirects is false the
CheckRedirect returns http.ErrUseLastResponse and the client hands back that
response as-is; when true it returns nil, so the client follows.  Because a
custom CheckRedirect is installed, the standard client's default ten-redirect
give-up never applies and the whole chain is followed.  An exhausted chain is
a transport error (none). -/
def doFollow (follow : Bool) : List HttpResponse → Option HttpResponse
  | [] => none
  | r :: rest =>
    if isRedirectStatus r.statusCode then
      if !follow then some r
      else doFollow follow rest
    else some r

/-- Usage text printed when -url is missing: the two fmt.Println lines of
src/main.go lines 40-41 followed by the flag.PrintDefaults output for the
five registered flags (alphabetical, with each flag's usage string from
lines 32-36). -/
def usageLines : List String :=
  ["Usage: httpreq -url <url> [options]",
   "Options:",
   "  -auth string",
   "    \tThe username and password for basic authentication in the format 'username:password'",
   "  -file string",
   "    \tThe name of a file to use as the request body",
   "  -follow",
   "    \tWhether to follow redirects",
   "  -method string",
   "    \tThe HTTP method to use (default \"GET\")",
   "  -url string",
   "    \tThe URL to make the request to"]

/-- Final state of a log.Fatalf exit: message to standard error, exit code 1
through os.Exit, so no deferred or later close runs. -/
def mkFatal (o : Outcome) (fileOpened : Bool) : FinalState :=
  { outcome := o
    exitCode := 1
    stdout := []
    sentRequest := none
    fileOpened := fileOpened
    fileClosed := false
    respBodyAcquired := false
    respBodyClosed := false }

/-- Outcome of the header loop of src/main.go lines 80-87 running over the
trailing arguments with reqParams.Headers left nil: an argument without a
colon is a log.Fatalf exit; an argument with a colon reaches
reqParams.Headers.Set, an assignment into a nil map, which panics, so no
later argument is examined. -/
inductive HeaderLoopOutcome where
  | ok
  | fatalHeader
  | panicked
deriving DecidableEq

/-- Header loop of src/main.go lines 80-87 (see HeaderLoopOutcome). -/
def procHeaderArgs : List String → HeaderLoopOutcome
  | [] => .ok
  | a :: _ =>
    if (goSplitN2Colon a).length ≠ 2 then .fatalHeader
    else .panicked

/-- Value of the Authorization header synthesized at src/main.go line 102:
"Basic " followed by the base64 of username, a colon and password, the parts
coming from the first-colon split of the -auth string. -/
def authHeaderValue (auth : String) : String :=
  match goSplitN2Colon auth with
  | [u, p] => "Basic " ++ base64Encode (u ++ ":" ++ p)
  | _ => ""

/-- The request built by src/main.go lines 90-104 on the paths that reach
client.Do: http.NewRequest gives an empty header map, the copy loop over
reqParams.Headers (still nil, hence empty) adds nothing, and when -auth was
given the Authorization header is then Set. -/
def builtReq (inv : Invocation) : SentRequest :=
  { method := inv.method
    url := inv.url
    headers :=
      if inv.auth ≠ "" then setHeader [] "Authorization" (authHeaderValue inv.auth)
      else [] }

/-- Authorization header carried by the request handed to the client, when
one was handed over. -/
def authHeaderOf (st : FinalState) : Option String :=
  match st.sentRequest with
  | none => none
  | some req => lookupHeader req.headers "Authorization"

/-- Status line printed at src/main.go line 125. -/
def statusLine (r : HttpResponse) : String :=
  "HTTP/" ++ toString r.protoMajor ++ "." ++ toString r.protoMinor ++ " " ++ r.status

/-- Header lines printed at src/main.go lines 128-130: one line per name,
showing only the first value. -/
def headerLines (hs : List (String × List String)) : List String :=
  hs.map (fun kv => kv.1 ++ ": " ++ kv.2.headD "")

/-- Model of src/main.go lines 118-155, from client.Do on.  The transport
closes the request body (the -file handle) during Do, success or error; the
deferred resp.Body.Close of line 122 runs only when main returns normally
(the JSON-error early return and the final return), not on a log.Fatalf
exit, because os.Exit skips deferred calls. -/
def runAfterSend (inv : Invocation) (w : World) (req : SentRequest)
    (fileOpened : Bool) : FinalState :=
  match doFollow inv.follow w.chain with
  | none =>
    { outcome := .fatalNetwork
      exitCode := 1
      stdout := []
      sentRequest := some req
      fileOpened := fileOpened
      fileClosed := fileOpened
      respBodyAcquired := false
      respBodyClosed := false }
  | some resp =>
    let pre := statusLine resp :: headerLines resp.headers ++ [""]
    match resp.bodyRead with
    | .error _ =>
      { outcome := .fatalBodyRead
        exitCode := 1
        stdout := pre
        sentRequest := some req
        fileOpened := fileOpened
        fileClosed := fileOpened
        respBodyAcquired := true
        respBodyClosed := false }
    | .ok body =>
      match renderBody body with
      | .parseError m =>
        { outcome := .jsonError
          exitCode := 0
          stdout := pre ++ ["Error unmarshaling JSON: " ++ m]
          sentRequest := some req
          fileOpened := fileOpened
          fileClosed := fileOpened
          respBodyAcquired := true
          respBodyClosed := true }
      | .printed s =>
        { outcome := .success
          exitCode := 0
          stdout := pre ++ [s]
          sentRequest := some req
          fileOpened := fileOpened
          fileClosed := fileOpened
          respBodyAcquired := true
          respBodyClosed := true }

/-- Model of main (src/main.go lines 31-156): url presence check, url.Parse
validation, body-file open, auth split, header loop over the nil header map,
http.NewRequest, header copy and Authorization Set, client.Do, and response
rendering.  Each early exit is tagged with its Outcome. -/
def runMain (inv : Invocation) (w : World) : FinalState :=
  if inv.url = "" then
    { outcome := .usage
      exitCode := 1
      stdout := usageLines
      sentRequest := none
      fileOpened := false
      fileClosed := false
      respBodyAcquired := false
      respBodyClosed := false }
  else if w.urlParseOk = false then mkFatal .fatalUrl false
  else if inv.file ≠ "" ∧ w.fileOpenOk = false then mkFatal .fatalFile false
  else
    let fileOpened := inv.file != ""
    if inv.auth ≠ "" ∧ (goSplitN2Colon inv.auth).length ≠ 2 then
      mkFatal .fatalAuth fileOpened
    else
      match procHeaderArgs inv.args with
      | .fatalHeader => mkFatal .fatalHeader fileOpened
      | .panicked =>
        { outcome := .panicHeader
          exitCode := 2
          stdout := []
          sentRequest := none
          fileOpened := fileOpened
          fileClosed := false
          respBodyAcquired := false
          respBodyClosed := false }
      | .ok =>
        if w.newRequestOk = false then mkFatal .fatalNewRequest fileOpened
        else runAfterSend inv w (builtReq inv) fileOpened

/-- Whether Unmarshal into `map[string]interface\x7b\x7d` accepts this value:
only objects and null. -/
def isObjOrNull : Jso → Bool
  | .obj _ => true
  | .null => true
  | _ => false

theorem breakAtColon_reconstruct :
    ∀ (cs a b : List Char), breakAtColon cs = some (a, b) → a ++ ':' :: b = cs := by
  intro cs
  induction cs with
  | nil => intro a b h; simp [breakAtColon] at h
  | cons c cs ih =>
    intro a b h
    by_cases hc : c = ':'
    · subst hc
      simp [breakAtColon] at h
      obtain ⟨ha, hb⟩ := h
      subst ha; subst hb; rfl
    · simp only [breakAtColon, if_neg hc] at h
      cases hbc : breakAtColon cs with
      | none => rw [hbc] at h; exact absurd h (by simp)
      | some p =>
        rw [hbc] at h
        obtain ⟨a0, b0⟩ := p
        simp only [Option.some.injEq, Prod.mk.injEq] at h
        obtain ⟨ha, hb⟩ := h
        subst ha; subst hb
        rw [List.cons_append, ih a0 b0 hbc]

theorem breakAtColon_isSome_of_contains :
    ∀ (cs : List Char), cs.contains ':' = true → (breakAtColon cs).isSome = true := by
  intro cs
  induction cs with
  | nil => intro h; simp [List.contains] at h
  | cons c cs ih =>
    intro h
    by_cases hc : c = ':'
    · subst hc; simp [breakAtColon]
    · have hcs : cs.contains ':' = true := by
        cases hcc : cs.contains ':' with
        | true => rfl
        | false =>
          exfalso
          apply hc
          simp only [List.contains_cons, hcc, Bool.or_false, beq_iff_eq] at h
          exact h.symm
      simp only [breakAtColon, if_neg hc]
      cases hbc : breakAtColon cs with
      | none =>
        have := ih hcs
        rw [hbc] at this
        simp at this
      | some p =>
        obtain ⟨a, b⟩ := p
        simp

theorem breakAtColon_none_of_not_contains :
    ∀ (cs : List Char), cs.contains ':' = false → breakAtColon cs = none := by
  intro cs
  induction cs with
  | nil => intro _; rfl
  | cons c cs ih =>
    intro h
    simp only [List.contains_cons, Bool.or_eq_false_iff] at h
    have hc : ¬(c = ':') := by
      intro hc; subst hc; simp at h
    simp only [breakAtColon, if_neg hc]
    rw [ih (by simpa using h.2)]

theorem goSplitN2Colon_no_colon (s : String) (h : containsColon s = false) :
    goSplitN2Colon s = [s] := by
  unfold goSplitN2Colon
  rw [breakAtColon_none_of_not_contains s.data h]

theorem goSplitN2Colon_length_of_colon (s : String) (h : containsColon s = true) :
    (goSplitN2Colon s).length = 2 := by
  unfold goSplitN2Colon
  have := breakAtColon_isSome_of_contains s.data h
  cases hbc : breakAtColon s.data with
  | none => rw [hbc] at this; simp at this
  | some p => obtain ⟨a, b⟩ := p; simp

theorem authHeaderValue_of_colon (s : String) (h : containsColon s = true) :
    authHeaderValue s = "Basic " ++ base64Encode s := by
  unfold authHeaderValue
  have hsome := breakAtColon_isSome_of_contains s.data h
  cases hbc : breakAtColon s.data with
  | none => rw [hbc] at hsome; simp at hsome
  | some p =>
    obtain ⟨a, b⟩ := p
    have hrec := breakAtColon_reconstruct s.data a b hbc
    have hs : String.mk a ++ ":" ++ String.mk b = s := by
      have h2 : String.mk (a ++ ':' :: b) = s := by rw [hrec]
      rw [← h2]
      apply String.ext
      simp [String.data_append]
    simp only [goSplitN2Colon, hbc]
    rw [hs]

theorem runMain_sends (inv : Invocation) (w : World)
    (hurl : inv.url ≠ "") (hparse : w.urlParseOk = true)
    (hfile : inv.file = "" ∨ w.fileOpenOk = true)
    (hauth : inv.auth = "" ∨ containsColon inv.auth = true)
    (hargs : inv.args = []) (hreq : w.newRequestOk = true) :
    runMain inv w = runAfterSend inv w (builtReq inv) (inv.file != "") := by
  unfold runMain
  rw [if_neg hurl]
  rw [if_neg (by simp [hparse])]
  rw [if_neg (by rcases hfile with h | h <;> simp [h])]
  rw [if_neg (by
    rcases hauth with h | h
    · simp [h]
    · simp [goSplitN2Colon_length_of_colon inv.auth h])]
  rw [hargs]
  simp only [procHeaderArgs]
  rw [if_neg (by simp [hreq])]

theorem runAfterSend_sentRequest (inv : Invocation) (w : World) (req : SentRequest)
    (fo : Bool) : (runAfterSend inv w req fo).sentRequest = some req := by
  unfold runAfterSend
  cases doFollow inv.follow w.chain with
  | none => rfl
  | some resp =>
    dsimp only
    cases resp.bodyRead with
    | error e => rfl
    | ok body =>
      dsimp only
      cases renderBody body with
      | parseError m => rfl
      | printed s => rfl

theorem runAfterSend_stdout_take (inv : Invocation) (w : World) (req : SentRequest)
    (fo : Bool) (resp : HttpResponse)
    (h : doFollow inv.follow w.chain = some resp) :
    (runAfterSend inv w req fo).stdout.take (resp.headers.length + 2)
      = statusLine resp :: (headerLines resp.headers ++ [""]) := by
  have hlen : (statusLine resp :: (headerLines resp.headers ++ [""])).length
      = resp.headers.length + 2 := by
    simp [headerLines]
  unfold runAfterSend
  rw [h]
  dsimp only
  cases resp.bodyRead with
  | error e =>
    dsimp only
    rw [← hlen]
    rw [show statusLine resp :: headerLines resp.headers ++ [""]
          = statusLine resp :: (headerLines resp.headers ++ [""]) from by simp]
    rw [List.take_length]
  | ok body =>
    dsimp only
    cases renderBody body with
    | parseError m =>
      dsimp only
      rw [← hlen]
      rw [show (statusLine resp :: headerLines resp.headers ++ [""])
              ++ ["Error unmarshaling JSON: " ++ m]
            = (statusLine resp :: (headerLines resp.headers ++ [""]))
              ++ ["Error unmarshaling JSON: " ++ m] from by simp]
      rw [List.take_left]
    | printed s =>
      dsimp only
      rw [← hlen]
      rw [show (statusLine resp :: headerLines resp.headers ++ [""]) ++ [s]
            = (statusLine resp :: (headerLines resp.headers ++ [""])) ++ [s] from by simp]
      rw [List.take_left]

theorem doFollow_reaches_final (redirects : List HttpResponse) (final : HttpResponse)
    (hred : ∀ x ∈ redirects, isRedirectStatus x.statusCode = true)
    (hfin : isRedirectStatus final.statusCode = false) :
    doFollow true (redirects ++ [final]) = some final := by
  induction redirects with
  | nil => simp [doFollow, hfin]
  | cons r rs ih =>
    have hr : isRedirectStatus r.statusCode = true := hred r (by simp)
    simp only [List.cons_append, doFollow, hr, Bool.not_true, if_true]
    exact ih (fun x hx => hred x (List.mem_cons_of_mem r hx))

/-- C2: on any invocation that passes URL, file and auth validation and
supplies a trailing header argument containing a colon (well-formed), the
write into the never-initialized nil Headers map of RequestParams panics at
src/main.go line 86, so the program neither records the header nor sends any
request. -/
theorem c2_nil_header_map_panics (inv : Invocation) (w : World)
    (hurl : inv.url ≠ "") (hparse : w.urlParseOk = true)
    (hfile : inv.file = "" ∨ w.fileOpenOk = true)
    (hauth : inv.auth = "" ∨ containsColon inv.auth = true)
    (a : String) (rest : List String) (hargs : inv.args = a :: rest)
    (hcolon : containsColon a = true) :
    (runMain inv w).outcome = .panicHeader ∧ (runMain inv w).sentRequest = none := by
  have hproc : procHeaderArgs inv.args = .panicked := by
    rw [hargs]
    simp only [procHeaderArgs]
    rw [if_neg (by simp [goSplitN2Colon_length_of_colon a hcolon])]
  unfold runMain
  rw [if_neg hurl]
  rw [if_neg (by simp [hparse])]
  rw [if_neg (by rcases hfile with h | h <;> simp [h])]
  rw [if_neg (by
    rcases hauth with h | h
    · simp [h]
    · simp [goSplitN2Colon_length_of_colon inv.auth h])]
  rw [hproc]
  exact ⟨rfl, rfl⟩

/-- C2 witness: a concrete invocation with one well-formed header argument
panics without handing any request to the client. -/
theorem c2_nil_header_map_panics_witness :
    (runMain ⟨"http://example.com", "GET", "", false, "", ["X-Test: v"]⟩
        ⟨true, true, true, []⟩).outcome = .panicHeader
    ∧ (runMain ⟨"http://example.com", "GET", "", false, "", ["X-Test: v"]⟩
        ⟨true, true, true, []⟩).sentRequest = none :=
  c2_nil_header_map_panics _ _ (by decide) rfl (Or.inl rfl) (Or.inl rfl)
    "X-Test: v" [] rfl (by decide)

/-- C1: evaluation at the failing input.  The claim says a well-formed
"Name: value" argument is transmitted with name and value trimmed; the code
instead panics on the nil header map before any request is handed to the
client.  The no-colon half of the claim does hold: the third conjunct shows
a colon-free argument is a fatal exit before any request. -/
theorem c1_trimmed_header_code_bug_eval :
    (runMain ⟨"http://example.com", "GET", "", false, "", ["Accept: application/json"]⟩
        ⟨true, true, true, []⟩).outcome = .panicHeader
    ∧ (runMain ⟨"http://example.com", "GET", "", false, "", ["Accept: application/json"]⟩
        ⟨true, true, true, []⟩).sentRequest = none
    ∧ (runMain ⟨"http://example.com", "GET", "", false, "", ["nocolonheader"]⟩
        ⟨true, true, true, []⟩).outcome = .fatalHeader := by
  refine ⟨?_, ?_, ?_⟩ <;> decide

/-- C6: evaluation at the failing input.  The claim says that with both
-auth credentials and an explicit Authorization header argument the explicit
header is applied first and the synthesized Basic value wins on the final
request; the code instead panics writing the explicit header into the nil
header map, so no request is ever constructed or sent. -/
theorem c6_auth_priority_code_bug_eval :
    (runMain ⟨"http://example.com", "GET", "", false, "u:p", ["Authorization: Bearer tok"]⟩
        ⟨true, true, true, []⟩).outcome = .panicHeader
    ∧ (runMain ⟨"http://example.com", "GET", "", false, "u:p", ["Authorization: Bearer tok"]⟩
        ⟨true, true, true, []⟩).sentRequest = none := by
  constructor <;> decide

/-- C10: when -url is empty the program prints the usage text (which contains
every flag name), exits with status 1, and performs no validation, file open,
request construction or network activity. -/
theorem c10_missing_url_usage (inv : Invocation) (w : World) (h : inv.url = "") :
    (runMain inv w).outcome = .usage ∧ (runMain inv w).exitCode = 1
    ∧ (runMain inv w).sentRequest = none ∧ (runMain inv w).fileOpened = false
    ∧ (["-url", "-method", "-file", "-follow", "-auth"].all
        (fun n => strContains (String.intercalate "\n" (runMain inv w).stdout) n)) = true := by
  unfold runMain
  rw [if_pos h]
  exact ⟨rfl, rfl, rfl, rfl, by decide⟩

/-- C10 witness: concrete invocation with empty -url. -/
theorem c10_missing_url_usage_witness :
    (runMain ⟨"", "GET", "", false, "", []⟩ ⟨true, true, true, []⟩).outcome = .usage
    ∧ (runMain ⟨"", "GET", "", false, "", []⟩ ⟨true, true, true, []⟩).exitCode = 1
    ∧ (runMain ⟨"", "GET", "", false, "", []⟩ ⟨true, true, true, []⟩).sentRequest = none
    ∧ (runMain ⟨"", "GET", "", false, "", []⟩ ⟨true, true, true, []⟩).fileOpened = false
    ∧ (["-url", "-method", "-file", "-follow", "-auth"].all
        (fun n => strContains
          (String.intercalate "\n"
            (runMain ⟨"", "GET", "", false, "", []⟩ ⟨true, true, true, []⟩).stdout) n)) = true :=
  c10_missing_url_usage ⟨"", "GET", "", false, "", []⟩ ⟨true, true, true, []⟩ rfl

/-- C3 counterexample: the body "[1,2]" parses successfully as JSON (an
array), yet the renderer does not reprint it; Unmarshal into
`map[string]interface\x7b\x7d` rejects a non-object document, so the
invocation takes the parse-error path and prints no body content. -/
theorem c3_valid_json_array_not_reprinted :
    (parseJson "[1,2]").isSome = true ∧ isParseErr (renderBody "[1,2]") = true := by
  constructor <;> decide

/-- C3 amended: a body parsing as a JSON object is reprinted with two-space
indentation (keys sorted, duplicates collapsed last-write-wins); a body
parsing as JSON null prints null; every other body, including valid JSON
arrays and scalars as well as non-JSON text, yields a parse-error report
with no body content printed.  The last two conjuncts check the spec's
concrete examples. -/
theorem c3_render_objects_only (s : String) :
    (∀ fs, parseJson s = some (.obj fs) →
        renderBody s
          = .printed (renderJF (s.data.length + 16) (normalizeJF (s.data.length + 16) (.obj fs)) 0))
    ∧ (parseJson s = some .null → renderBody s = .printed "null")
    ∧ (∀ j, parseJson s = some j → isObjOrNull j = false →
        isParseErr (renderBody s) = true)
    ∧ (parseJson s = none → isParseErr (renderBody s) = true)
    ∧ renderBody "\x7b\"b\":2,\"a\":1\x7d" = .printed "\x7b\n  \"a\": 1,\n  \"b\": 2\n\x7d"
    ∧ isParseErr (renderBody "not json") = true := by
  refine ⟨?_, ?_, ?_, ?_, by decide, by decide⟩
  · intro fs h
    unfold renderBody
    rw [h]
  · intro h
    unfold renderBody
    rw [h]
  · intro j h hj
    unfold renderBody
    rw [h]
    cases j with
    | null => simp [isObjOrNull] at hj
    | obj fs => simp [isObjOrNull] at hj
    | bool b => rfl
    | num n => rfl
    | str s2 => rfl
    | arr xs => rfl
  · intro h
    unfold renderBody
    rw [h]
    rfl

/-- C3 witness: a parsed array takes the error path; a parsed object is
reprinted through the normalizing pretty-printer. -/
theorem c3_render_objects_only_witness :
    isParseErr (renderBody "[true]") = true
    ∧ renderBody "\x7b\"a\":1\x7d"
        = .printed (renderJF ("\x7b\"a\":1\x7d".data.length + 16)
            (normalizeJF ("\x7b\"a\":1\x7d".data.length + 16) (.obj [("a", .num 1)])) 0) :=
  ⟨(c3_render_objects_only "[true]").2.2.1 (.arr [.bool true]) rfl rfl,
   (c3_render_objects_only "\x7b\"a\":1\x7d").1 [("a", .num 1)] rfl⟩

theorem authHeaderOf_runAfterSend (inv : Invocation) (w : World) (req : SentRequest)
    (fo : Bool) :
    authHeaderOf (runAfterSend inv w req fo) = lookupHeader req.headers "Authorization" := by
  unfold authHeaderOf
  rw [runAfterSend_sentRequest]

/-- C4: on an invocation that reaches the response-rendering stage, a stream
error while reading the body is a fatal exit with status 1, while a JSON
unmarshal error is reported and the process exits with status 0 through the
early return from main. -/
theorem c4_unmarshal_error_exit_codes (inv : Invocation) (w : World)
    (hurl : inv.url ≠ "") (hparse : w.urlParseOk = true)
    (hfile : inv.file = "" ∨ w.fileOpenOk = true)
    (hauth : inv.auth = "" ∨ containsColon inv.auth = true)
    (hargs : inv.args = []) (hreq : w.newRequestOk = true)
    (resp : HttpResponse) (hresp : doFollow inv.follow w.chain = some resp) :
    (∀ e, resp.bodyRead = .error e →
        (runMain inv w).outcome = .fatalBodyRead ∧ (runMain inv w).exitCode = 1)
    ∧ (∀ b, resp.bodyRead = .ok b → isParseErr (renderBody b) = true →
        (runMain inv w).outcome = .jsonError ∧ (runMain inv w).exitCode = 0) := by
  rw [runMain_sends inv w hurl hparse hfile hauth hargs hreq]
  unfold runAfterSend
  rw [hresp]
  dsimp only
  constructor
  · intro e he
    rw [he]
    exact ⟨rfl, rfl⟩
  · intro b hb hpe
    rw [hb]
    dsimp only
    cases hrb : renderBody b with
    | printed s2 => rw [hrb] at hpe; simp [isParseErr] at hpe
    | parseError m => exact ⟨rfl, rfl⟩

/-- C4 witness: a concrete body-read error exits 1; a concrete non-JSON body
exits 0 through the early return. -/
theorem c4_unmarshal_error_exit_codes_witness :
    ((runMain ⟨"http://example.com", "GET", "", false, "", []⟩
        ⟨true, true, true, [⟨1, 1, "200 OK", 200, [], .error "read failed"⟩]⟩).outcome
          = .fatalBodyRead
      ∧ (runMain ⟨"http://example.com", "GET", "", false, "", []⟩
        ⟨true, true, true, [⟨1, 1, "200 OK", 200, [], .error "read failed"⟩]⟩).exitCode = 1)
    ∧ ((runMain ⟨"http://example.com", "GET", "", false, "", []⟩
        ⟨true, true, true, [⟨1, 1, "200 OK", 200, [], .ok "not json"⟩]⟩).outcome = .jsonError
      ∧ (runMain ⟨"http://example.com", "GET", "", false, "", []⟩
        ⟨true, true, true, [⟨1, 1, "200 OK", 200, [], .ok "not json"⟩]⟩).exitCode = 0) :=
  ⟨(c4_unmarshal_error_exit_codes ⟨"http://example.com", "GET", "", false, "", []⟩
      ⟨true, true, true, [⟨1, 1, "200 OK", 200, [], .error "read failed"⟩]⟩
      (by decide) rfl (Or.inl rfl) (Or.inl rfl) rfl rfl
      ⟨1, 1, "200 OK", 200, [], .error "read failed"⟩ rfl).1 "read failed" rfl,
   (c4_unmarshal_error_exit_codes ⟨"http://example.com", "GET", "", false, "", []⟩
      ⟨true, true, true, [⟨1, 1, "200 OK", 200, [], .ok "not json"⟩]⟩
      (by decide) rfl (Or.inl rfl) (Or.inl rfl) rfl rfl
      ⟨1, 1, "200 OK", 200, [], .ok "not json"⟩ rfl).2 "not json" rfl (by decide)⟩

/-- C5: on an invocation that reaches the request-building stage with a
non-empty -auth value, a value containing a colon makes the request handed
to the client carry the header Authorization: Basic base64(auth) (the
first-colon split parts rejoined are the auth string itself), and a value
without a colon is a fatal exit before any request is built or sent. -/
theorem c5_basic_auth_header (inv : Invocation) (w : World)
    (hurl : inv.url ≠ "") (hparse : w.urlParseOk = true)
    (hfile : inv.file = "" ∨ w.fileOpenOk = true)
    (hargs : inv.args = []) (hreq : w.newRequestOk = true)
    (hne : inv.auth ≠ "") :
    (containsColon inv.auth = true →
        authHeaderOf (runMain inv w) = some ("Basic " ++ base64Encode inv.auth))
    ∧ (containsColon inv.auth = false →
        (runMain inv w).outcome = .fatalAuth ∧ (runMain inv w).sentRequest = none
        ∧ (runMain inv w).exitCode = 1) := by
  constructor
  · intro hcolon
    rw [runMain_sends inv w hurl hparse hfile (Or.inr hcolon) hargs hreq]
    rw [authHeaderOf_runAfterSend]
    unfold builtReq
    dsimp only
    rw [if_pos hne]
    simp [setHeader, lookupHeader, authHeaderValue_of_colon inv.auth hcolon]
  · intro hcolon
    unfold runMain
    rw [if_neg hurl]
    rw [if_neg (by simp [hparse])]
    rw [if_neg (by rcases hfile with h | h <;> simp [h])]
    rw [if_pos ⟨hne, by rw [goSplitN2Colon_no_colon inv.auth hcolon]; simp⟩]
    exact ⟨rfl, rfl, rfl⟩

/-- C5 witness: with -auth u:p the request carries Basic dTpw (the base64 of
"u:p"); with a colon-free -auth the run is a fatal exit with nothing sent. -/
theorem c5_basic_auth_header_witness :
    (authHeaderOf (runMain ⟨"http://example.com", "GET", "", false, "u:p", []⟩
        ⟨true, true, true, []⟩) = some ("Basic " ++ base64Encode "u:p")
      ∧ base64Encode "u:p" = "dTpw")
    ∧ ((runMain ⟨"http://example.com", "GET", "", false, "nocolon", []⟩
        ⟨true, true, true, []⟩).outcome = .fatalAuth
      ∧ (runMain ⟨"http://example.com", "GET", "", false, "nocolon", []⟩
        ⟨true, true, true, []⟩).sentRequest = none
      ∧ (runMain ⟨"http://example.com", "GET", "", false, "nocolon", []⟩
        ⟨true, true, true, []⟩).exitCode = 1) :=
  ⟨⟨(c5_basic_auth_header _ _ (by decide) rfl (Or.inl rfl) rfl rfl (by decide)).1 (by decide),
    by decide⟩,
   (c5_basic_auth_header _ _ (by decide) rfl (Or.inl rfl) rfl rfl (by decide)).2 (by decide)⟩

theorem runAfterSend_outcome_mem (inv : Invocation) (w : World) (req : SentRequest)
    (fo : Bool) :
    (runAfterSend inv w req fo).outcome = .fatalNetwork
    ∨ (runAfterSend inv w req fo).outcome = .fatalBodyRead
    ∨ (runAfterSend inv w req fo).outcome = .jsonError
    ∨ (runAfterSend inv w req fo).outcome = .success := by
  unfold runAfterSend
  cases doFollow inv.follow w.chain with
  | none => exact Or.inl rfl
  | some resp =>
    dsimp only
    cases resp.bodyRead with
    | error e => exact Or.inr (Or.inl rfl)
    | ok body =>
      dsimp only
      cases renderBody body with
      | parseError m => exact Or.inr (Or.inr (Or.inl rfl))
      | printed s => exact Or.inr (Or.inr (Or.inr rfl))

/-- C7: on an invocation that reaches the exchange, when -follow is false and
the first response has a redirect status the client returns it unfollowed and
the renderer prints that response's status line and headers; when -follow is
true and the chain is a run of redirects (of any length) ending in a
non-redirect response, the client follows transparently and the renderer
prints the final response's status line and headers. -/
theorem c7_redirect_policy (inv : Invocation) (w : World)
    (hurl : inv.url ≠ "") (hparse : w.urlParseOk = true)
    (hfile : inv.file = "" ∨ w.fileOpenOk = true)
    (hauth : inv.auth = "" ∨ containsColon inv.auth = true)
    (hargs : inv.args = []) (hreq : w.newRequestOk = true) :
    (∀ r rest, w.chain = r :: rest → isRedirectStatus r.statusCode = true →
        inv.follow = false →
        (runMain inv w).stdout.take (r.headers.length + 2)
          = statusLine r :: (headerLines r.headers ++ [""]))
    ∧ (∀ redirects final, w.chain = redirects ++ [final] →
        (∀ x ∈ redirects, isRedirectStatus x.statusCode = true) →
        isRedirectStatus final.statusCode = false →
        inv.follow = true →
        (runMain inv w).stdout.take (final.headers.length + 2)
          = statusLine final :: (headerLines final.headers ++ [""])) := by
  rw [runMain_sends inv w hurl hparse hfile hauth hargs hreq]
  constructor
  · intro r rest hchain hred hfol
    apply runAfterSend_stdout_take
    rw [hchain, hfol]
    simp [doFollow, hred]
  · intro redirects final hchain hred hfin hfol
    apply runAfterSend_stdout_take
    rw [hchain, hfol]
    exact doFollow_reaches_final redirects final hred hfin

/-- C7 witness: with a 302 followed by a 200 in the chain, follow=false
renders the 302's status line and Location header, follow=true renders the
200's status line and header. -/
theorem c7_redirect_policy_witness :
    (runMain ⟨"http://example.com", "GET", "", false, "", []⟩
        ⟨true, true, true,
          [⟨1, 1, "302 Found", 302, [("Location", ["http://other/"])], .ok ""⟩,
           ⟨1, 1, "200 OK", 200, [("Content-Type", ["text/plain"])], .ok "\x7b\x7d"⟩]⟩).stdout.take 3
      = statusLine ⟨1, 1, "302 Found", 302, [("Location", ["http://other/"])], .ok ""⟩
        :: (headerLines [("Location", ["http://other/"])] ++ [""])
    ∧ (runMain ⟨"http://example.com", "GET", "", true, "", []⟩
        ⟨true, true, true,
          [⟨1, 1, "302 Found", 302, [("Location", ["http://other/"])], .ok ""⟩,
           ⟨1, 1, "200 OK", 200, [("Content-Type", ["text/plain"])], .ok "\x7b\x7d"⟩]⟩).stdout.take 3
      = statusLine ⟨1, 1, "200 OK", 200, [("Content-Type", ["text/plain"])], .ok "\x7b\x7d"⟩
        :: (headerLines [("Content-Type", ["text/plain"])] ++ [""]) :=
  ⟨(c7_redirect_policy ⟨"http://example.com", "GET", "", false, "", []⟩
      ⟨true, true, true,
        [⟨1, 1, "302 Found", 302, [("Location", ["http://other/"])], .ok ""⟩,
         ⟨1, 1, "200 OK", 200, [("Content-Type", ["text/plain"])], .ok "\x7b\x7d"⟩]⟩
      (by decide) rfl (Or.inl rfl) (Or.inl rfl) rfl rfl).1
      ⟨1, 1, "302 Found", 302, [("Location", ["http://other/"])], .ok ""⟩
      [⟨1, 1, "200 OK", 200, [("Content-Type", ["text/plain"])], .ok "\x7b\x7d"⟩]
      rfl rfl rfl,
   (c7_redirect_policy ⟨"http://example.com", "GET", "", true, "", []⟩
      ⟨true, true, true,
        [⟨1, 1, "302 Found", 302, [("Location", ["http://other/"])], .ok ""⟩,
         ⟨1, 1, "200 OK", 200, [("Content-Type", ["text/plain"])], .ok "\x7b\x7d"⟩]⟩
      (by decide) rfl (Or.inl rfl) (Or.inl rfl) rfl rfl).2
      [⟨1, 1, "302 Found", 302, [("Location", ["http://other/"])], .ok ""⟩]
      ⟨1, 1, "200 OK", 200, [("Content-Type", ["text/plain"])], .ok "\x7b\x7d"⟩
      rfl (by decide) rfl rfl⟩

/-- C8: with a non-empty -url, a url.Parse failure is a fatal exit before the
body file is opened and before any request is built or sent; a url.Parse
success never ends in the invalid-URL exit (nor the usage exit), so
processing continues past URL validation. -/
theorem c8_url_validation (inv : Invocation) (w : World) (hurl : inv.url ≠ "") :
    (w.urlParseOk = false →
        (runMain inv w).outcome = .fatalUrl ∧ (runMain inv w).exitCode = 1
        ∧ (runMain inv w).sentRequest = none ∧ (runMain inv w).fileOpened = false)
    ∧ (w.urlParseOk = true →
        (runMain inv w).outcome ≠ .fatalUrl ∧ (runMain inv w).outcome ≠ .usage) := by
  constructor
  · intro hp
    unfold runMain
    rw [if_neg hurl, if_pos hp]
    exact ⟨rfl, rfl, rfl, rfl⟩
  · intro hp
    unfold runMain
    rw [if_neg hurl]
    rw [if_neg (by simp [hp])]
    split
    · simp [mkFatal]
    · split
      · simp [mkFatal]
      · split
        · simp [mkFatal]
        · simp
        · split
          · simp [mkFatal]
          · rcases runAfterSend_outcome_mem inv w (builtReq inv) (inv.file != "")
              with h | h | h | h <;> simp [h]

/-- C8 witness: a rejected non-empty URL is a fatal exit with nothing opened
or sent; an accepted one proceeds past URL validation. -/
theorem c8_url_validation_witness :
    ((runMain ⟨"http://bad url", "GET", "f.txt", false, "", []⟩
        ⟨false, true, true, []⟩).outcome = .fatalUrl
      ∧ (runMain ⟨"http://bad url", "GET", "f.txt", false, "", []⟩
        ⟨false, true, true, []⟩).exitCode = 1
      ∧ (runMain ⟨"http://bad url", "GET", "f.txt", false, "", []⟩
        ⟨false, true, true, []⟩).sentRequest = none
      ∧ (runMain ⟨"http://bad url", "GET", "f.txt", false, "", []⟩
        ⟨false, true, true, []⟩).fileOpened = false)
    ∧ ((runMain ⟨"http://example.com", "GET", "", false, "", []⟩
        ⟨true, true, true, []⟩).outcome ≠ .fatalUrl
      ∧ (runMain ⟨"http://example.com", "GET", "", false, "", []⟩
        ⟨true, true, true, []⟩).outcome ≠ .usage) :=
  ⟨(c8_url_validation ⟨"http://bad url", "GET", "f.txt", false, "", []⟩
      ⟨false, true, true, []⟩ (by decide)).1 rfl,
   (c8_url_validation ⟨"http://example.com", "GET", "", false, "", []⟩
      ⟨true, true, true, []⟩ (by decide)).2 rfl⟩

/-- C9 counterexample: a concrete exit path on which an acquired resource is
not released before the process ends.  With -file set (and openable) and a
malformed -auth value, the file is opened and then log.Fatalf exits through
os.Exit, which skips every deferred or later close, so the file handle is
never closed by the program. -/
theorem c9_file_unclosed_on_fatal_exit :
    (runMain ⟨"http://example.com", "POST", "body.json", false, "nocolon", []⟩
        ⟨true, true, true, []⟩).fileOpened = true
    ∧ (runMain ⟨"http://example.com", "POST", "body.json", false, "nocolon", []⟩
        ⟨true, true, true, []⟩).fileClosed = false
    ∧ (runMain ⟨"http://example.com", "POST", "body.json", false, "nocolon", []⟩
        ⟨true, true, true, []⟩).outcome = .fatalAuth
    ∧ (runMain ⟨"http://example.com", "POST", "body.json", false, "nocolon", []⟩
        ⟨true, true, true, []⟩).exitCode = 1 := by
  refine ⟨?_, ?_, ?_, ?_⟩ <;> decide

/-- C9 amended: on the exits that return normally from main (success and the
JSON-unmarshal-error early return) the request body file, if opened, has
been closed by the transport during the exchange and the response stream is
closed by the deferred close; on the body-read fatal exit the stream was
acquired but is not closed (os.Exit skips the deferred close), though the
file has been closed by the transport; on the malformed-auth fatal exit
nothing is closed, in particular not a previously opened body file. -/
theorem c9_resource_release (inv : Invocation) (w : World) :
    ((runMain inv w).outcome = .success ∨ (runMain inv w).outcome = .jsonError →
        ((runMain inv w).fileOpened = true → (runMain inv w).fileClosed = true)
        ∧ (runMain inv w).respBodyClosed = true)
    ∧ ((runMain inv w).outcome = .fatalBodyRead →
        (runMain inv w).respBodyAcquired = true ∧ (runMain inv w).respBodyClosed = false
        ∧ ((runMain inv w).fileOpened = true → (runMain inv w).fileClosed = true))
    ∧ ((runMain inv w).outcome = .fatalAuth → (runMain inv w).fileClosed = false) := by
  unfold runMain runAfterSend mkFatal
  repeat' split
  all_goals simp

/-- C9 amended witness: a concrete successful run closes the response stream
and has no file to close. -/
theorem c9_resource_release_witness :
    ((runMain ⟨"http://example.com", "GET", "", false, "", []⟩
        ⟨true, true, true, [⟨1, 1, "200 OK", 200, [], .ok "\x7b\x7d"⟩]⟩).fileOpened = true →
      (runMain ⟨"http://example.com", "GET", "", false, "", []⟩
        ⟨true, true, true, [⟨1, 1, "200 OK", 200, [], .ok "\x7b\x7d"⟩]⟩).fileClosed = true)
    ∧ (runMain ⟨"http://example.com", "GET", "", false, "", []⟩
        ⟨true, true, true, [⟨1, 1, "200 OK", 200, [], .ok "\x7b\x7d"⟩]⟩).respBodyClosed = true :=
  (c9_resource_release ⟨"http://example.com", "GET", "", false, "", []⟩
      ⟨true, true, true, [⟨1, 1, "200 OK", 200, [], .ok "\x7b\x7d"⟩]⟩).1 (Or.inl rfl)
